import Mathlib

/-!
Formal model of the Humanizer service (Flask app in `main.py`, detector in
`detector.py`, rewriter in `rewriter.py`, paraphraser in `paraphraser.py`).

The pure string / arithmetic kernels of the Python code are embedded as
executable Lean functions over `List Char`, `String`, `ℚ` and `ℝ`.  External
effects (HTTP, the HuggingFace models, WordNet, `random`) are passed in as
explicit oracle parameters; floating point arithmetic is idealised as exact
rational / real arithmetic.  Python character-class tests (`isalpha`,
`isupper`, ...) are modelled on their ASCII behaviour via `Char.isAlpha`,
`Char.isUpper`, `Char.isLower`.
-/

namespace Humanizer

/-! ## The CLEAN stage: `clean_final_text` in `main.py`

Python source:
```
cleaned_text = text.replace("—", ", ")
cleaned_text = re.sub(r' +([,.])', r'\x7b1', cleaned_text)
```
The regex deletes every maximal run of ASCII spaces that immediately precedes
a comma or a period.  Equivalently, scanning from the right, a space is
deleted exactly when everything between it and the next retained character is
deleted and that retained character is a comma or period; this is the `foldr`
below.
-/

/-- Model of `text.replace("—", ", ")`: each em dash becomes a comma
followed by a space. -/
def replaceEmDash (l : List Char) : List Char :=
  l.flatMap fun c => if c = '—' then [',', ' '] else [c]

/-- One step of the space-removal scan (processing right to left): a space is
dropped when the already-processed suffix starts with a comma or period. -/
def rmSpaceStep (c : Char) (acc : List Char) : List Char :=
  if c = ' ' ∧ (acc.head? = some ',' ∨ acc.head? = some '.') then acc
  else c :: acc

/-- Model of `re.sub(r' +([,.])', r'\x7b1', s)`: remove every run of spaces
standing immediately before a comma or period. -/
def rmSpaceBeforePunct (l : List Char) : List Char :=
  l.foldr rmSpaceStep []

/-- Model of `clean_final_text` in `main.py`: replace em dashes by ", ",
then remove spaces before commas and periods.  The empty string is returned
unchanged (the `if not text` guard). -/
def clean_final_text (s : String) : String :=
  if s.data = [] then s
  else ⟨rmSpaceBeforePunct (replaceEmDash s.data)⟩

/-- A list of characters in which no space stands directly before a comma or
a period. -/
def noSpaceBeforePunct : List Char → Bool
  | [] => true
  | [_] => true
  | c :: d :: t =>
    (!(c = ' ' && (d = ',' || d = '.'))) && noSpaceBeforePunct (d :: t)

lemma rmSpaceStep_eq_cons (c : Char) (acc : List Char)
    (h : ¬ (c = ' ' ∧ (acc.head? = some ',' ∨ acc.head? = some '.'))) :
    rmSpaceStep c acc = c :: acc := by
  simp [rmSpaceStep, h]

lemma noSpaceBeforePunct_cons (c : Char) (l : List Char)
    (hl : noSpaceBeforePunct l = true)
    (hc : ¬ (c = ' ' ∧ (l.head? = some ',' ∨ l.head? = some '.'))) :
    noSpaceBeforePunct (c :: l) = true := by
  cases l with
  | nil => rfl
  | cons d t =>
    simp only [noSpaceBeforePunct, Bool.and_eq_true, Bool.not_eq_true']
    refine ⟨?_, hl⟩
    by_contra hcontra
    simp only [Bool.not_eq_false, Bool.and_eq_true, Bool.or_eq_true, decide_eq_true_eq]
      at hcontra
    exact hc ⟨hcontra.1, by
      rcases hcontra.2 with h | h
      · exact Or.inl (by simp [h])
      · exact Or.inr (by simp [h])⟩

/-- After the space-removal pass, no space stands before a comma or period. -/
lemma noSpaceBeforePunct_rmSpaceBeforePunct (l : List Char) :
    noSpaceBeforePunct (rmSpaceBeforePunct l) = true := by
  induction l with
  | nil => rfl
  | cons c t ih =>
    show noSpaceBeforePunct (rmSpaceStep c (rmSpaceBeforePunct t)) = true
    by_cases h : c = ' ' ∧ ((rmSpaceBeforePunct t).head? = some ','
        ∨ (rmSpaceBeforePunct t).head? = some '.')
    · simpa [rmSpaceStep, h] using ih
    · rw [rmSpaceStep_eq_cons c _ h]
      exact noSpaceBeforePunct_cons c _ ih h

/-- On inputs with no space before a comma or period, the space-removal pass
is the identity. -/
lemma rmSpaceBeforePunct_of_noSpaceBeforePunct (l : List Char)
    (h : noSpaceBeforePunct l = true) : rmSpaceBeforePunct l = l := by
  induction l with
  | nil => rfl
  | cons c t ih =>
    cases t with
    | nil =>
      show rmSpaceStep c (rmSpaceBeforePunct []) = [c]
      simp [rmSpaceBeforePunct, rmSpaceStep]
    | cons d u =>
      simp only [noSpaceBeforePunct, Bool.and_eq_true, Bool.not_eq_true',
        Bool.and_eq_false_iff] at h
      have htail : rmSpaceBeforePunct (d :: u) = d :: u := ih h.2
      show rmSpaceStep c (rmSpaceBeforePunct (d :: u)) = c :: d :: u
      rw [htail]
      apply rmSpaceStep_eq_cons
      intro hcd
      rcases hcd with ⟨hc, hd⟩
      have hd' : d = ',' ∨ d = '.' := by
        rcases hd with h1 | h1
        · exact Or.inl (by simpa using h1)
        · exact Or.inr (by simpa using h1)
      rcases h.1 with h1 | h1
      · simp [hc] at h1
      · rcases hd' with rfl | rfl <;> simp at h1

/-- Every character of the output of the space-removal pass occurs in its
input. -/
lemma mem_of_mem_rmSpaceBeforePunct {c : Char} {l : List Char}
    (h : c ∈ rmSpaceBeforePunct l) : c ∈ l := by
  induction l with
  | nil => simp [rmSpaceBeforePunct] at h
  | cons d t ih =>
    have h' : c ∈ rmSpaceStep d (rmSpaceBeforePunct t) := h
    by_cases hd : d = ' ' ∧ ((rmSpaceBeforePunct t).head? = some ','
        ∨ (rmSpaceBeforePunct t).head? = some '.')
    · simp only [rmSpaceStep, if_pos hd] at h'
      exact List.mem_cons_of_mem d (ih h')
    · rw [rmSpaceStep_eq_cons d _ hd] at h'
      rcases List.mem_cons.mp h' with rfl | hmem
      · exact List.mem_cons_self c t
      · exact List.mem_cons_of_mem d (ih hmem)

/-- The em-dash replacement never outputs an em dash. -/
lemma emDash_not_mem_replaceEmDash (l : List Char) : '—' ∉ replaceEmDash l := by
  intro h
  rcases List.mem_flatMap.mp h with ⟨c, _, hc⟩
  by_cases hdash : c = '—'
  · rw [if_pos hdash] at hc
    exact absurd hc (by decide)
  · rw [if_neg hdash] at hc
    exact hdash (List.mem_singleton.mp hc).symm

/-- On inputs containing no em dash, the em-dash replacement is the
identity. -/
lemma replaceEmDash_of_not_mem (l : List Char) (h : '—' ∉ l) :
    replaceEmDash l = l := by
  induction l with
  | nil => rfl
  | cons c t ih =>
    have hc : c ≠ '—' := fun hc => h (hc ▸ List.mem_cons_self c t)
    have ht : '—' ∉ t := fun hm => h (List.mem_cons_of_mem c hm)
    simp only [replaceEmDash, List.flatMap_cons] at *
    rw [if_neg (by simpa using hc)]
    simpa using ih ht

/-- C4: the CLEAN transform is idempotent:
`clean_final_text (clean_final_text x) = clean_final_text x` for every
string `x`. -/
theorem clean_final_text_idempotent (x : String) :
    clean_final_text (clean_final_text x) = clean_final_text x := by
  unfold clean_final_text
  by_cases hx : x.data = []
  · simp [hx]
  · rw [if_neg hx]
    set m : List Char := rmSpaceBeforePunct (replaceEmDash x.data) with hm
    by_cases hm0 : (String.mk m).data = []
    · rw [if_pos hm0]
    · rw [if_neg hm0]
      have hdash : '—' ∉ m := fun hmem =>
        emDash_not_mem_replaceEmDash x.data (mem_of_mem_rmSpaceBeforePunct hmem)
      have h1 : replaceEmDash (String.mk m).data = m := by
        show replaceEmDash m = m
        exact replaceEmDash_of_not_mem m hdash
      rw [h1,
        rmSpaceBeforePunct_of_noSpaceBeforePunct m
          (noSpaceBeforePunct_rmSpaceBeforePunct (replaceEmDash x.data))]

/-- C5 counterexample: on the spec's concrete scenario B input the CLEAN
transform produces "word1,  word2, word3." (two spaces survive after the
first comma and one before "word3" is consumed only ahead of punctuation),
not the spec's claimed "word1, word2,word3.". -/
theorem clean_final_text_scenarioB_counterexample :
    clean_final_text "word1 — word2 , word3 ." = "word1,  word2, word3." ∧
      ("word1,  word2, word3." : String) ≠ "word1, word2,word3." := by
  constructor
  · rfl
  · decide

/-- C5 amended: the CLEAN transform applied to the exact input string
"word1 — word2 , word3 ." returns the exact output string
"word1,  word2, word3.". -/
theorem clean_final_text_scenarioB :
    clean_final_text "word1 — word2 , word3 ." = "word1,  word2, word3." := by
  rfl

/-! ## The detector: `AITextDetector` in `detector.py`

`detect_single_model` is modelled on the post-softmax probability vector
(the classifier itself is an external model); `detect_ensemble` is modelled
on the list of per-model results it collects (an entry carries `error ≠ none`
both when `detect_single_model` caught an exception and when the outer
`except` branch of the ensemble loop synthesised an error entry).  NumPy's
float arithmetic is idealised over `ℚ`; `np.std` takes a real square root,
which is why the confidence-related definitions are `noncomputable`. -/

/-- The dictionary returned by `AITextDetector.detect_single_model`
(and stored per model by `detect_ensemble`): the `error` key is present
exactly when the probe failed. -/
structure SingleModelResult where
  ai_probability : ℚ
  human_probability : ℚ
  model_used : String
  error : Option String
  deriving DecidableEq

/-- Model of the shape-handling in `detect_single_model` (detector.py
lines 106-121): a 2-class output is read as `[human, ai]`; a 1-class output
is read as `ai = probs[0]`; anything else defaults to `ai = 0.5`; in the
non-2 cases `human = 1 - ai`. -/
def detect_single_model (probs : List ℚ) (model_name : String) :
    SingleModelResult :=
  if probs.length = 2 then
    { ai_probability := probs.getD 1 0
      human_probability := probs.getD 0 0
      model_used := model_name
      error := none }
  else
    let ai : ℚ := if probs.length = 1 then probs.getD 0 0 else 1/2
    { ai_probability := ai
      human_probability := 1 - ai
      model_used := model_name
      error := none }

/-- The per-model results whose dictionary has no `'error'` key
(`if 'error' not in result` in the ensemble loop). -/
def successfulResults (results : List SingleModelResult) :
    List SingleModelResult :=
  results.filter fun r => r.error.isNone

/-- The `ai_probs` list accumulated by `detect_ensemble`. -/
def success_ai_probs (results : List SingleModelResult) : List ℚ :=
  (successfulResults results).map (·.ai_probability)

/-- The `human_probs` list accumulated by `detect_ensemble`. -/
def success_human_probs (results : List SingleModelResult) : List ℚ :=
  (successfulResults results).map (·.human_probability)

/-- `np.mean` over rationals. -/
def np_mean (xs : List ℚ) : ℚ := xs.sum / xs.length

/-- `np.std` squared: the population variance `mean((x - mean)²)` used by
`np.std` (ddof = 0). -/
def np_var (xs : List ℚ) : ℚ := np_mean (xs.map fun x => (x - np_mean xs) ^ 2)

/-- `np.std`: the population standard deviation, as a real number. -/
noncomputable def np_std (xs : List ℚ) : ℝ := Real.sqrt ((np_var xs : ℚ) : ℝ)

/-- The ensemble part of the dictionary returned by
`AITextDetector.detect_ensemble`. -/
structure EnsembleResult where
  ensemble_ai_probability : ℚ
  ensemble_human_probability : ℚ
  confidence : ℝ
  prediction : String

/-- Model of `detect_ensemble` (detector.py lines 149-189): means over the
error-free probes, `confidence = max(0, 1 - np.std(ai_probs))`, degenerate
`0.5/0.5/0` values when `ai_probs` is empty, and the prediction label from
`ensemble_ai_prob > 0.5`. -/
noncomputable def detect_ensemble (results : List SingleModelResult) :
    EnsembleResult :=
  let ais := success_ai_probs results
  let humans := success_human_probs results
  let ensemble_ai_prob : ℚ := if ais.isEmpty then 1/2 else np_mean ais
  let ensemble_human_prob : ℚ := if ais.isEmpty then 1/2 else np_mean humans
  let confidence : ℝ := if ais.isEmpty then 0 else 1 - np_std ais
  { ensemble_ai_probability := ensemble_ai_prob
    ensemble_human_probability := ensemble_human_prob
    confidence := max 0 confidence
    prediction :=
      if ensemble_ai_prob > 1/2 then "AI-generated" else "Human-written" }

/-- Modelled from the spec: the arithmetic mean of a list of values. -/
def spec_arithmetic_mean (xs : List ℚ) : ℚ := xs.sum / xs.length

/-- Modelled from the spec: the (population) standard deviation of a list of
values, `sqrt(mean((x - mean)²))`; scenario C (`stddev([0.8,0.6]) = 0.1`)
fixes the population convention. -/
noncomputable def spec_stddev (xs : List ℚ) : ℝ :=
  Real.sqrt ((spec_arithmetic_mean (xs.map fun x =>
    (x - spec_arithmetic_mean xs) ^ 2) : ℚ) : ℝ)

/-- C1: with at least one error-free probe, the ensemble `ai_probability` is
the arithmetic mean of the `ai_probability` values of exactly the error-free
probes (appending a failed probe changes nothing: failures are excluded, not
zero-filled), and the confidence is `max(0, 1 - stddev(those values))`. -/
theorem detect_ensemble_mean_and_confidence (results : List SingleModelResult)
    (h : success_ai_probs results ≠ []) :
    (detect_ensemble results).ensemble_ai_probability
        = spec_arithmetic_mean (success_ai_probs results) ∧
      (detect_ensemble results).confidence
        = max 0 (1 - spec_stddev (success_ai_probs results)) ∧
      ∀ e : SingleModelResult, e.error ≠ none →
        (detect_ensemble (results ++ [e])).ensemble_ai_probability
          = (detect_ensemble results).ensemble_ai_probability := by
  have hne : (success_ai_probs results).isEmpty = false := by
    simpa [List.isEmpty_iff] using h
  refine ⟨?_, ?_, ?_⟩
  · simp [detect_ensemble, hne, np_mean, spec_arithmetic_mean]
  · simp [detect_ensemble, hne, np_std, spec_stddev, np_var, np_mean,
      spec_arithmetic_mean]
  · intro e he
    have hnone : e.error.isNone = false := by
      rw [Bool.eq_false_iff]
      simpa [Option.isNone_iff_eq_none] using he
    have happ : success_ai_probs (results ++ [e]) = success_ai_probs results := by
      simp [success_ai_probs, successfulResults, List.filter_append, hnone]
    simp [detect_ensemble, happ]

/-- C1 witness: scenario C — two error-free probes with `ai_probability`
0.8 and 0.6 yield ensemble `ai_probability = 0.7` and `confidence = 0.9`. -/
theorem detect_ensemble_mean_and_confidence_witness :
    success_ai_probs
        [⟨4/5, 1/5, "chatgpt-detector", none⟩,
         ⟨3/5, 2/5, "mixed-detector", none⟩] ≠ [] ∧
      (detect_ensemble
        [⟨4/5, 1/5, "chatgpt-detector", none⟩,
         ⟨3/5, 2/5, "mixed-detector", none⟩]).ensemble_ai_probability
          = 7/10 ∧
      (detect_ensemble
        [⟨4/5, 1/5, "chatgpt-detector", none⟩,
         ⟨3/5, 2/5, "mixed-detector", none⟩]).confidence = 9/10 := by
  have hne : success_ai_probs
      [(⟨4/5, 1/5, "chatgpt-detector", none⟩ : SingleModelResult),
       ⟨3/5, 2/5, "mixed-detector", none⟩] ≠ [] := by
    simp [success_ai_probs, successfulResults]
  have h := detect_ensemble_mean_and_confidence
    [⟨4/5, 1/5, "chatgpt-detector", none⟩,
     ⟨3/5, 2/5, "mixed-detector", none⟩] hne
  have hais : success_ai_probs
      [(⟨4/5, 1/5, "chatgpt-detector", none⟩ : SingleModelResult),
       ⟨3/5, 2/5, "mixed-detector", none⟩] = [4/5, 3/5] := by
    simp [success_ai_probs, successfulResults]
  refine ⟨hne, ?_, ?_⟩
  · rw [h.1, hais]
    norm_num [spec_arithmetic_mean]
  · rw [h.2.1, hais]
    have hmean : spec_arithmetic_mean [4/5, 3/5] = 7/10 := by
      norm_num [spec_arithmetic_mean]
    have hq : spec_arithmetic_mean (([4/5, 3/5] : List ℚ).map fun x =>
        (x - spec_arithmetic_mean [4/5, 3/5]) ^ 2) = 1/100 := by
      rw [hmean]
      norm_num [spec_arithmetic_mean]
    rw [spec_stddev, hq]
    have hsq : ((1/100 : ℚ) : ℝ) = (1/10 : ℝ) ^ 2 := by norm_num
    rw [hsq, Real.sqrt_sq (by norm_num : (0:ℝ) ≤ 1/10)]
    rw [max_eq_right (by norm_num : (0:ℝ) ≤ 1 - 1/10)]
    norm_num

/-- C2: with an empty probe list, or one whose probes all carry an error,
`detect_ensemble` returns exactly the degenerate verdict: `ai_probability`
0.5, `human_probability` 0.5, confidence 0, and the human label. -/
theorem detect_ensemble_degenerate (results : List SingleModelResult)
    (h : ∀ r ∈ results, r.error ≠ none) :
    (detect_ensemble results).ensemble_ai_probability = 1/2 ∧
      (detect_ensemble results).ensemble_human_probability = 1/2 ∧
      (detect_ensemble results).confidence = 0 ∧
      (detect_ensemble results).prediction = "Human-written" := by
  have hfilter : successfulResults results = [] := by
    rw [successfulResults, List.filter_eq_nil_iff]
    intro r hr
    simpa [Option.isNone_iff_eq_none] using h r hr
  have hais : (success_ai_probs results).isEmpty = true := by
    simp [success_ai_probs, hfilter]
  refine ⟨?_, ?_, ?_, ?_⟩ <;>
    simp [detect_ensemble, hais]

/-- C2 witness: a single-probe list whose only probe errored gets the
degenerate verdict. -/
theorem detect_ensemble_degenerate_witness :
    (∀ r ∈ [(⟨1/2, 1/2, "chatgpt-detector", some "load failed"⟩ :
        SingleModelResult)], r.error ≠ none) ∧
      (detect_ensemble [(⟨1/2, 1/2, "chatgpt-detector", some "load failed"⟩ :
        SingleModelResult)]).ensemble_ai_probability = 1/2 ∧
      (detect_ensemble [(⟨1/2, 1/2, "chatgpt-detector", some "load failed"⟩ :
        SingleModelResult)]).confidence = 0 ∧
      (detect_ensemble [(⟨1/2, 1/2, "chatgpt-detector", some "load failed"⟩ :
        SingleModelResult)]).prediction = "Human-written" := by
  have hall : ∀ r ∈ [(⟨1/2, 1/2, "chatgpt-detector", some "load failed"⟩ :
      SingleModelResult)], r.error ≠ none := by
    intro r hr
    rcases List.mem_singleton.mp hr with rfl
    simp
  have h := detect_ensemble_degenerate _ hall
  exact ⟨hall, h.1, h.2.2.1, h.2.2.2⟩

/-- C8 counterexample: a single-class raw output `[0.9]` does not default to
`ai_probability = 0.5`; the raw value is used directly. -/
theorem detect_single_model_single_class_counterexample :
    (detect_single_model [9/10] "chatgpt-detector").ai_probability = 9/10 ∧
      (9/10 : ℚ) ≠ 1/2 := by
  constructor
  · rfl
  · norm_num

/-- C8 amended: a raw classifier output of cardinality 0 or ≥ 3 defaults to
`{ai: 0.5, human: 0.5}`, while a single-class output `[p]` yields
`ai_probability = p` and `human_probability = 1 - p`. -/
theorem detect_single_model_shape (probs : List ℚ) (name : String) :
    (probs.length ≠ 2 → probs.length ≠ 1 →
      (detect_single_model probs name).ai_probability = 1/2 ∧
        (detect_single_model probs name).human_probability = 1/2) ∧
      ∀ p : ℚ, probs = [p] →
        (detect_single_model probs name).ai_probability = p ∧
          (detect_single_model probs name).human_probability = 1 - p := by
  constructor
  · intro h2 h1
    simp [detect_single_model, h2, h1]
    norm_num
  · rintro p rfl
    simp [detect_single_model]

/-- C8 amended witness: the empty output defaults to 0.5/0.5 and the
single-class output `[0.6]` is passed through. -/
theorem detect_single_model_shape_witness :
    (detect_single_model ([] : List ℚ) "chatgpt-detector").ai_probability
        = 1/2 ∧
      (detect_single_model [3/5] "chatgpt-detector").ai_probability = 3/5 := by
  exact ⟨((detect_single_model_shape [] "chatgpt-detector").1
      (by decide) (by decide)).1,
    ((detect_single_model_shape [3/5] "chatgpt-detector").2 (3/5) rfl).1⟩

/-! ## The humanization pipeline: `HumanizerService.humanize_text` in `main.py`

`paraphrase_text` and `rewrite_text` call external models, so they enter the
model as oracle parameters of type `String → String × Option String`
(result text, optional error), matching their Python signatures.  Python
truthiness of the error value (`if not err`, `if err`) treats both `None`
and the empty string as falsy. -/

/-- Python truthiness of an `Optional[str]` error value. -/
def pyTruthyErr : Option String → Bool
  | none => false
  | some s => !s.data.isEmpty

/-- The whitespace class of Python's `str.strip()` (ASCII part). -/
def pyIsSpace (c : Char) : Bool :=
  c = ' ' || c = '\t' || c = '\n' || c = '\r' || c = '\x0b' || c = '\x0c'

/-- Model of Python's `str.strip()`. -/
def pyStrip (s : String) : String :=
  ⟨((s.data.dropWhile pyIsSpace).reverse.dropWhile pyIsSpace).reverse⟩

/-- The paraphrasing step of `humanize_text` (main.py lines 82-98): on a
falsy error and non-empty, non-whitespace output, the paraphrase is adopted
(with a leading ": " artifact stripped) and `"paraphrasing"` is recorded;
otherwise the input text flows on unchanged and `"paraphrasing_failed"` is
recorded. -/
def paraphrase_stage (para : String → String × Option String)
    (text : String) : String × List String :=
  let pr := para text
  if pyTruthyErr pr.2 = false ∧ pr.1 ≠ "" ∧ pyStrip pr.1 ≠ "" then
    ((if pr.1.data.take 2 = [':', ' '] then (⟨pr.1.data.drop 2⟩ : String)
      else pr.1), ["paraphrasing"])
  else
    (text, ["paraphrasing_failed"])

/-- The rewriting step of `humanize_text` (main.py lines 100-109): on a
truthy error the stage falls back to its input and records
`"rewriting_failed"`, else it adopts the rewritten text and records
`"rewriting"`. -/
def rewrite_stage (rew : String → String × Option String)
    (text : String) : String × List String :=
  let rr := rew text
  if pyTruthyErr rr.2 then (text, ["rewriting_failed"])
  else (rr.1, ["rewriting"])

/-- Model of `HumanizerService.humanize_text` (main.py lines 78-119),
returning the final text and the `processing_steps` list.  The length
statistics of the Python `stats` dictionary are derivable from the two
strings and are not tracked. -/
def humanize_text (para rew : String → String × Option String)
    (use_paraphrasing : Bool) (text : String) : String × List String :=
  let step1 : String × List String :=
    if use_paraphrasing then
      let pr := para text
      if pyTruthyErr pr.2 = false ∧ pr.1 ≠ "" ∧ pyStrip pr.1 ≠ "" then
        ((if pr.1.data.take 2 = [':', ' '] then (⟨pr.1.data.drop 2⟩ : String)
          else pr.1), ["paraphrasing"])
      else
        (text, ["paraphrasing_failed"])
    else (text, [])
  let rr := rew step1.1
  let step2 : String × List String :=
    if pyTruthyErr rr.2 then (step1.1, step1.2 ++ ["rewriting_failed"])
    else (rr.1, step1.2 ++ ["rewriting"])
  (clean_final_text step2.1, step2.2 ++ ["text_cleaning"])

/-- C3: in the pipeline with paraphrasing enabled, a paraphrase error or
empty/whitespace-only paraphrase output passes the stage input through
unchanged and records `"paraphrasing_failed"`; a successful paraphrase
records `"paraphrasing"` and strips a leading ": " artifact; a rewrite error
falls back to the rewrite input and records `"rewriting_failed"`; and the
final text is the cleaned output of the rewrite stage with `"text_cleaning"`
always appended to the steps. -/
theorem humanize_text_stage_behavior (para rew : String → String × Option String)
    (text : String) :
    ((pyTruthyErr (para text).2 = true ∨ pyStrip (para text).1 = "") →
        paraphrase_stage para text = (text, ["paraphrasing_failed"])) ∧
      ((pyTruthyErr (para text).2 = false ∧ pyStrip (para text).1 ≠ "") →
        paraphrase_stage para text =
          ((if (para text).1.data.take 2 = [':', ' ']
            then (⟨(para text).1.data.drop 2⟩ : String)
            else (para text).1), ["paraphrasing"])) ∧
      (pyTruthyErr (rew (paraphrase_stage para text).1).2 = true →
        rewrite_stage rew (paraphrase_stage para text).1 =
          ((paraphrase_stage para text).1, ["rewriting_failed"])) ∧
      humanize_text para rew true text =
        (clean_final_text (rewrite_stage rew (paraphrase_stage para text).1).1,
          (paraphrase_stage para text).2 ++
            (rewrite_stage rew (paraphrase_stage para text).1).2 ++
            ["text_cleaning"]) := by
  refine ⟨?_, ?_, ?_, ?_⟩
  · intro hfail
    have hcond : ¬ (pyTruthyErr (para text).2 = false ∧ (para text).1 ≠ ""
        ∧ pyStrip (para text).1 ≠ "") := by
      rcases hfail with h1 | h1
      · rintro ⟨h2, -, -⟩
        rw [h1] at h2
        cases h2
      · rintro ⟨-, -, h3⟩
        exact h3 h1
    simp only [paraphrase_stage, if_neg hcond]
  · rintro ⟨herr, hstrip⟩
    have hne : (para text).1 ≠ "" := by
      intro h0
      apply hstrip
      rw [h0]
      rfl
    simp only [paraphrase_stage, if_pos (And.intro herr (And.intro hne hstrip))]
  · intro herr
    simp only [rewrite_stage, if_pos herr]
  · show (let step1 := paraphrase_stage para text
      let rr := rew step1.1
      let step2 : String × List String :=
        if pyTruthyErr rr.2 then (step1.1, step1.2 ++ ["rewriting_failed"])
        else (rr.1, step1.2 ++ ["rewriting"])
      (clean_final_text step2.1, step2.2 ++ ["text_cleaning"])) = _
    by_cases herr : pyTruthyErr (rew (paraphrase_stage para text).1).2 = true
    · simp only [rewrite_stage, herr, if_true, List.append_assoc]
    · rw [Bool.not_eq_true] at herr
      simp only [rewrite_stage, herr, Bool.false_eq_true, if_false,
        List.append_assoc]

/-- C3 witness: a paraphrase returning ": Paraphrased output text" with no
error followed by a failing rewrite takes the success branch of the
paraphrase stage (stripping ": "), the failure branch of the rewrite stage,
and always appends `"text_cleaning"`; a paraphraser returning an error
passes its input through with `"paraphrasing_failed"`. -/
theorem humanize_text_stage_behavior_witness :
    paraphrase_stage (fun _ => (": Paraphrased output text", none))
        "AI generated input." =
      ("Paraphrased output text", ["paraphrasing"]) ∧
    rewrite_stage (fun _ => ("", some "rewrite crashed"))
        "Paraphrased output text" =
      ("Paraphrased output text", ["rewriting_failed"]) ∧
    humanize_text (fun _ => (": Paraphrased output text", none))
        (fun _ => ("", some "rewrite crashed")) true "AI generated input." =
      ("Paraphrased output text",
        ["paraphrasing", "rewriting_failed", "text_cleaning"]) ∧
    paraphrase_stage (fun _ => ("", some "model unavailable"))
        "AI generated input." =
      ("AI generated input.", ["paraphrasing_failed"]) := by
  have h := humanize_text_stage_behavior
    (fun _ => (": Paraphrased output text", none))
    (fun _ => ("", some "rewrite crashed")) "AI generated input."
  have hpara' : paraphrase_stage (fun _ => (": Paraphrased output text", none))
      "AI generated input." = ("Paraphrased output text", ["paraphrasing"]) := by
    rw [h.2.1 ⟨by decide, by decide⟩]
    decide
  refine ⟨hpara', ?_, ?_, ?_⟩
  · exact h.2.2.1 (by decide)
  · decide
  · have h0 := humanize_text_stage_behavior
      (fun _ => ("", some "model unavailable"))
      (fun _ => ("", some "rewrite crashed")) "AI generated input."
    exact h0.1 (Or.inr rfl)

/-! ## Synonym formatting: `TextRewriteService._preserve_word_format`
(rewriter.py lines 480-510)

The two `while` loops that peel leading and trailing non-alphabetic
characters are `takeWhile` on the character list and on its reverse; the
`end` index may reach −1, hence the `Int` comparison guarding the core
slice.  Python's `str.isupper` / `str.islower` (at least one cased
character, and every cased character upper / lower) and `str.capitalize`
are modelled on ASCII. -/

/-- Leading run of non-alphabetic characters of a token. -/
def wordPre (s : String) : List Char :=
  s.data.takeWhile fun c => !c.isAlpha

/-- Trailing run of non-alphabetic characters of a token. -/
def wordSuf (s : String) : List Char :=
  (s.data.reverse.takeWhile fun c => !c.isAlpha).reverse

/-- The `core_word` computed by `_preserve_word_format`: the slice between
the leading and trailing punctuation runs when `start <= end`, and the whole
token otherwise (tokens with no alphabetic character). -/
def coreWord (s : String) : List Char :=
  let o := s.data
  let start := (wordPre s).length
  let stop : Int := (o.length : Int) - 1 - (wordSuf s).length
  if (start : Int) ≤ stop then
    (o.drop start).take (o.length - (wordSuf s).length - start)
  else o

/-- Python's `str.capitalize`: first character uppercased, the rest
lowercased. -/
def pyCapitalizeL : List Char → List Char
  | [] => []
  | c :: t => c.toUpper :: t.map Char.toLower

/-- A cased character (ASCII). -/
def pyCasedChar (c : Char) : Bool := c.isUpper || c.isLower

/-- Python's `str.isupper`. -/
def pyIsUpperL (l : List Char) : Bool :=
  l.any pyCasedChar && l.all fun c => !c.isLower

/-- Python's `str.islower`. -/
def pyIsLowerL (l : List Char) : Bool :=
  l.any pyCasedChar && l.all fun c => !c.isUpper

/-- Model of `_preserve_word_format`: reattach the token's punctuation and
reapply its casing pattern, testing in the source's order `capitalized`
(first core character uppercase), then `isupper`, then `islower`. -/
def preserve_word_format (original replacement : String) : String :=
  let core := coreWord original
  let repl := replacement.data
  let repl2 :=
    if core.head?.elim false Char.isUpper then pyCapitalizeL repl
    else if pyIsUpperL core then repl.map Char.toUpper
    else if pyIsLowerL core then repl.map Char.toLower
    else repl
  ⟨wordPre original ++ repl2 ++ wordSuf original⟩

/-- C6 counterexample: a fully uppercase token "AB" with replacement "new"
yields the capitalized "New", not the fully uppercase "NEW" the claim
demands — the first-character test shadows the `isupper` branch. -/
theorem preserve_word_format_allcaps_counterexample :
    preserve_word_format "AB" "new" = "New" ∧ ("New" : String) ≠ "NEW" := by
  constructor
  · rfl
  · decide

/-- C6 amended: substitution preserves punctuation and casing as the code
does: a core word whose FIRST character is uppercase (this includes fully
uppercase cores) produces a capitalized replacement, and a lowercase core
produces a lowercase replacement, with the token's leading and trailing
punctuation reattached unchanged. -/
theorem preserve_word_format_casing (original replacement : String)
    (c : Char) (rest : List Char) (hcore : coreWord original = c :: rest) :
    (c.isUpper = true →
      preserve_word_format original replacement =
        ⟨wordPre original ++ pyCapitalizeL replacement.data ++
          wordSuf original⟩) ∧
      (pyIsLowerL (c :: rest) = true →
        preserve_word_format original replacement =
          ⟨wordPre original ++ replacement.data.map Char.toLower ++
            wordSuf original⟩) := by
  constructor
  · intro hu
    rw [preserve_word_format, hcore]
    simp [hu]
  · intro hl
    have hl' := hl
    rw [pyIsLowerL, Bool.and_eq_true] at hl'
    obtain ⟨d, hdmem, hdc⟩ := List.any_eq_true.mp hl'.1
    have hdnotup : d.isUpper = false := by
      have := List.all_eq_true.mp hl'.2 d hdmem
      simpa using this
    have hdlow : d.isLower = true := by
      rcases Bool.or_eq_true_iff.mp hdc with h | h
      · rw [h] at hdnotup
        cases hdnotup
      · exact h
    have hcu : c.isUpper = false := by
      have := List.all_eq_true.mp hl'.2 c (List.mem_cons_self c rest)
      simpa using this
    have hup : pyIsUpperL (c :: rest) = false := by
      rw [Bool.eq_false_iff]
      intro hT
      rw [pyIsUpperL, Bool.and_eq_true] at hT
      have := List.all_eq_true.mp hT.2 d hdmem
      rw [hdlow] at this
      cases this
    rw [preserve_word_format, hcore]
    simp [hcu, hup, hl]

/-- C6 amended witness: "Hello," with replacement "world" becomes "World,"
(capitalized core, comma reattached), and "(end)" with replacement "FINISH"
becomes "(finish)" (lowercase core, parentheses reattached). -/
theorem preserve_word_format_casing_witness :
    preserve_word_format "Hello," "world" = "World," ∧
      preserve_word_format "(end)" "FINISH" = "(finish)" := by
  constructor
  · rw [(preserve_word_format_casing "Hello," "world" 'H'
      ['e', 'l', 'l', 'o'] (by decide)).1 (by decide)]
    decide
  · rw [(preserve_word_format_casing "(end)" "FINISH" 'e'
      ['n', 'd'] (by decide)).2 (by decide)]
    decide

/-! ## Sentence segmentation: `AITextDetector.detect_ai_sentences`
(detector.py lines 331-354)

`re.split(r'[.!?]+', text)` scans the text once, closing the current
fragment at each maximal run of sentence-ending punctuation; the per-probe
ensemble scores of the surviving fragments come from external models, so
only the segmentation and numbering are modelled.  The returned
`(sentence_number, sentence_text)` pairs carry `i + 1` for `i` the index in
the list of SURVIVING fragments. -/

/-- Sentence-ending punctuation of the split pattern `[.!?]+`. -/
def isSentSep (c : Char) : Bool := c = '.' || c = '!' || c = '?'

/-- Scan state for `re.split`: completed fragments, current fragment, and
whether the scan stands inside a separator run. -/
structure ReSplitState where
  done : List (List Char)
  cur : List Char
  run : Bool

/-- One character of the `re.split(r'[.!?]+', ...)` scan. -/
def reSplitStep (st : ReSplitState) (c : Char) : ReSplitState :=
  if isSentSep c then
    if st.run then st
    else { done := st.done ++ [st.cur], cur := [], run := true }
  else { done := st.done, cur := st.cur ++ [c], run := false }

/-- Model of `re.split(r'[.!?]+', text)`: fragments between maximal runs of
'.', '!', '?', including empty boundary fragments, as `re.split` returns
them. -/
def reSplitSentences (l : List Char) : List (List Char) :=
  let st := l.foldl reSplitStep ⟨[], [], false⟩
  st.done ++ [st.cur]

/-- Model of the segmentation and numbering of `detect_ai_sentences`: strip
each fragment, keep those of length > 10, and number the survivors
`1, 2, ...` in order. -/
def detect_ai_sentences_units (text : String) : List (Nat × String) :=
  let sentences := ((reSplitSentences text.data).map fun f =>
    pyStrip ⟨f⟩).filter fun s => s.length > 10
  sentences.enum.map fun p => (p.1 + 1, p.2)

/-- Modelled from the spec: the 1-based ordinal positions, IN THE FULL
stripped fragment sequence, of the fragments that survive the length
filter. -/
def spec_original_ordinals (text : String) : List Nat :=
  (((reSplitSentences text.data).map fun f => pyStrip ⟨f⟩).enum.filter
    fun p => p.2.length > 10).map fun p => p.1 + 1

/-- C7 counterexample: in "Tiny. This fragment is long enough to survive."
the first fragment "Tiny" is dropped (length 4 ≤ 10); the surviving
fragment's original ordinal in the full sentence sequence is 2, yet the
code numbers it 1 — original ordinals are NOT preserved across dropped
fragments. -/
theorem detect_ai_sentences_ordinal_counterexample :
    (detect_ai_sentences_units
        "Tiny. This fragment is long enough to survive.").map Prod.fst
        = [1] ∧
      spec_original_ordinals
        "Tiny. This fragment is long enough to survive." = [2] := by
  constructor
  · rfl
  · rfl

/-- C7 amended: sentence mode splits on runs of '.', '!', '?', trims each
fragment, drops fragments of length ≤ 10 after trimming, returns the
surviving units in original document order (a sublist of the full stripped
fragment sequence), and numbers them consecutively 1..k AMONG THE SURVIVORS
(original ordinals of dropped fragments are not preserved). -/
theorem detect_ai_sentences_units_spec (text : String) :
    (detect_ai_sentences_units text).map Prod.snd
        = ((reSplitSentences text.data).map fun f => pyStrip ⟨f⟩).filter
            (fun s => s.length > 10) ∧
      List.Sublist ((detect_ai_sentences_units text).map Prod.snd)
        ((reSplitSentences text.data).map fun f => pyStrip ⟨f⟩) ∧
      (detect_ai_sentences_units text).map Prod.fst
        = (List.range ((detect_ai_sentences_units text).length)).map
            (· + 1) := by
  have h1 : (detect_ai_sentences_units text).map Prod.snd
      = ((reSplitSentences text.data).map fun f => pyStrip ⟨f⟩).filter
          (fun s => s.length > 10) := by
    rw [detect_ai_sentences_units, List.map_map]
    exact List.enum_map_snd _
  refine ⟨h1, ?_, ?_⟩
  · rw [h1]
    exact List.filter_sublist _
  · rw [detect_ai_sentences_units, List.map_map, List.length_map,
      List.enum_length]
    show (List.enum _).map ((· + 1) ∘ Prod.fst) = _
    rw [← List.map_map, List.enum_map_fst]

/-! ## Synonym substitution: `TextRewriteService._replace_synonyms`
(rewriter.py lines 451-478)

The sentence is split on whitespace, a counter caps the substitutions at
`max(1, len(words) // 4)`, and a word is only replaced when its cleaned
form (`re.sub(r'[^\w]', '', word).lower()`) has length ≥ 3 and is not in
the common-word list.  The coin flip `random.random() < 0.4`, the WordNet
lookup, and the random synonym choice are folded into an oracle
`Nat → String → Option String` (position, cleaned word ↦ chosen synonym,
`none` when the coin fails or no synonym is found). -/

/-- Python's `str.split()` with no argument: split on whitespace runs,
discarding empty fragments. -/
def pySplitWhitespace (s : String) : List String :=
  let st := s.data.foldl
    (fun (st : List (List Char) × List Char) c =>
      if pyIsSpace c then
        if st.2.isEmpty then st else (st.1 ++ [st.2], [])
      else (st.1, st.2 ++ [c]))
    ([], [])
  (if st.2.isEmpty then st.1 else st.1 ++ [st.2]).map fun l => ⟨l⟩

/-- A `\w` word character (ASCII). -/
def pyIsWordChar (c : Char) : Bool := c.isAlphanum || c = '_'

/-- `re.sub(r'[^\w]', '', word).lower()` — the `clean_word` of
`_replace_synonyms`. -/
def clean_word_of (w : String) : String :=
  ⟨(w.data.filter pyIsWordChar).map Char.toLower⟩

/-- The common-word set of `TextRewriteService._is_common_word`. -/
def common_words : List String :=
  ["the", "and", "that", "this", "with", "have", "will", "been",
   "from", "they", "know", "want", "been", "good", "much", "some",
   "time", "very", "when", "come", "here", "just", "like", "long",
   "make", "many", "over", "such", "take", "than", "them", "well",
   "were", "work", "about", "could", "would", "there", "their",
   "which", "should", "think", "where", "through", "because",
   "between", "important", "different", "following", "around",
   "though", "without", "another", "example", "however", "therefore",
   "research", "study", "analysis", "data", "method", "result",
   "conclusion", "evidence", "theory", "hypothesis", "findings",
   "literature", "methodology", "framework", "approach", "concept",
   "significant", "substantial", "considerable", "demonstrate",
   "indicate", "suggest", "reveal", "establish", "examine", "AI", "IoT",
   "ML", "NLP", "deep learning", "blockchain", "cloud computing",
   "big data", "cybersecurity", "data science", "augmented reality",
   "virtual reality", "edge computing", "quantum computing",
   "natural language processing", "machine learning",
   "artificial intelligence", "internet of things", "data analytics",
   "digital transformation", "automation", "smart technology",
   "sustainability", "innovation", "disruption", "technology"]

/-- Model of `_is_common_word`: membership of the lowercased word in the
common-word set. -/
def is_common_word (w : String) : Bool :=
  common_words.contains ⟨w.data.map Char.toLower⟩

/-- The indexed word loop of `_replace_synonyms`: `mods` is the
`modifications` counter, `maxMods` the cap; the loop breaks (leaving the
remaining words untouched) once the cap is reached. -/
def replace_synonyms_aux (oracle : Nat → String → Option String)
    (maxMods : Nat) : List (Nat × String) → Nat → List String × Nat
  | [], mods => ([], mods)
  | (i, w) :: rest, mods =>
    if maxMods ≤ mods then (w :: rest.map Prod.snd, mods)
    else
      let cw := clean_word_of w
      if cw.data.length < 3 ∨ is_common_word cw = true then
        let r := replace_synonyms_aux oracle maxMods rest mods
        (w :: r.1, r.2)
      else
        match oracle i cw with
        | some syn =>
          let r := replace_synonyms_aux oracle maxMods rest (mods + 1)
          (preserve_word_format w syn :: r.1, r.2)
        | none =>
          let r := replace_synonyms_aux oracle maxMods rest mods
          (w :: r.1, r.2)

/-- Model of `_replace_synonyms`: the rebuilt sentence and the number of
substitutions performed. -/
def replace_synonyms (oracle : Nat → String → Option String)
    (sentence : String) : String × Nat :=
  let words := pySplitWhitespace sentence
  let max_modifications := max 1 (words.length / 4)
  let r := replace_synonyms_aux oracle max_modifications words.enum 0
  (String.intercalate " " r.1, r.2)

lemma replace_synonyms_aux_le (oracle : Nat → String → Option String)
    (maxMods : Nat) (l : List (Nat × String)) (mods : Nat)
    (h : mods ≤ maxMods) :
    (replace_synonyms_aux oracle maxMods l mods).2 ≤ maxMods := by
  induction l generalizing mods with
  | nil => simpa [replace_synonyms_aux] using h
  | cons p rest ih =>
    obtain ⟨i, w⟩ := p
    rw [replace_synonyms_aux]
    split
    · exact h
    · next hcap =>
      have hlt : mods + 1 ≤ maxMods := by omega
      dsimp only
      split
      · exact ih mods h
      · split
        · exact ih (mods + 1) hlt
        · exact ih mods h

/-- C9: for every sentence (and every outcome of the randomised synonym
lookup), `_replace_synonyms` performs at most `⌈word_count / 4⌉`
substitutions, where `word_count` is the number of whitespace-separated
tokens of the sentence. -/
theorem replace_synonyms_cap (oracle : Nat → String → Option String)
    (sentence : String) :
    (replace_synonyms oracle sentence).2
      ≤ ((pySplitWhitespace sentence).length + 3) / 4 := by
  by_cases hlen : (pySplitWhitespace sentence).length = 0
  · have hnil : pySplitWhitespace sentence = [] := List.length_eq_zero.mp hlen
    show (replace_synonyms_aux oracle _ (pySplitWhitespace sentence).enum 0).2
      ≤ _
    rw [hnil]
    exact Nat.zero_le _
  · have hn : 1 ≤ (pySplitWhitespace sentence).length :=
      Nat.one_le_iff_ne_zero.mpr hlen
    have hb := replace_synonyms_aux_le oracle
      (max 1 ((pySplitWhitespace sentence).length / 4))
      (pySplitWhitespace sentence).enum 0 (Nat.zero_le _)
    refine le_trans hb (max_le ?_ ?_) <;> omega

/-! ## Highlighting: `highlight_ai_text` (detector.py lines 615-641)

The detector's flagged sentences are external model output; they enter the
model as the `ai_sentences` parameter (already in the reverse-position
order the code sorts them into) together with a `render` parameter for the
`f"\x7bai_prob:.2f\x7d"` float formatting.  `str.find` is leftmost
substring search, and the splice rebuilds
`text[:start] + highlighted + text[start + len:]`. -/

/-- Model of Python's `str.find`: index of the leftmost occurrence of `pat`
in `hay`, or `none`. -/
def pyFind : List Char → List Char → Option Nat
  | [], pat => if pat.isPrefixOf ([] : List Char) then some 0 else none
  | c :: t, pat =>
    if pat.isPrefixOf (c :: t) then some 0
    else (pyFind t pat).map (· + 1)

/-- The per-format highlighted sentence of `highlight_ai_text`; an unknown
format falls through to the bare sentence. -/
def format_ai_sentence (output_format : String) (prob_str : String)
    (sentence : String) : String :=
  if output_format = "markdown" then
    "**[AI: " ++ prob_str ++ "]** " ++ sentence
  else if output_format = "html" then
    "<span style=\"background-color: #ffcccc; font-weight: bold;\">[AI: "
      ++ prob_str ++ "] " ++ sentence ++ "</span>"
  else if output_format = "plain" then
    "[AI-DETECTED: " ++ prob_str ++ "] " ++ sentence
  else sentence

/-- One loop iteration of `highlight_ai_text`: locate the sentence in the
current text and splice in its highlighted form; leave the text unchanged
when the search fails. -/
def highlight_step (output_format : String) (render : ℚ → String)
    (cur : List Char) (si : String × ℚ) : List Char :=
  match pyFind cur si.1.data with
  | none => cur
  | some i =>
    cur.take i ++ (format_ai_sentence output_format (render si.2) si.1).data
      ++ cur.drop (i + si.1.data.length)

/-- Model of `highlight_ai_text`: fold the splice over the flagged
sentences. -/
def highlight_ai_text (output_format : String) (render : ℚ → String)
    (ai_sentences : List (String × ℚ)) (text : String) : String :=
  ⟨ai_sentences.foldl (highlight_step output_format render) text.data⟩

/-- Replacing a found occurrence by the pattern itself reconstructs the
text. -/
lemma pyFind_splice {hay pat : List Char} {i : Nat}
    (h : pyFind hay pat = some i) :
    hay.take i ++ pat ++ hay.drop (i + pat.length) = hay := by
  induction hay generalizing i with
  | nil =>
    by_cases hp : pat.isPrefixOf ([] : List Char)
    · have hpat : pat = [] := by
        simpa using List.isPrefixOf_iff_prefix.mp hp
      subst hpat
      simp
    · rw [pyFind, if_neg hp] at h
      cases h
  | cons c t ih =>
    rw [pyFind] at h
    by_cases hp : pat.isPrefixOf (c :: t)
    · rw [if_pos hp, Option.some.injEq] at h
      subst h
      obtain ⟨s, hs⟩ := List.isPrefixOf_iff_prefix.mp hp
      rw [List.take_zero, List.nil_append, Nat.zero_add, ← hs,
        List.drop_left]
    · rw [if_neg hp] at h
      obtain ⟨j, hj, hij⟩ := Option.map_eq_some'.mp h
      subst hij
      have harith : j + 1 + pat.length = (j + pat.length) + 1 := by omega
      rw [harith, List.drop_succ_cons, List.take_succ_cons,
        List.cons_append, List.cons_append]
      exact congrArg (c :: ·) (ih hj)

/-- C10: with an output format other than "markdown", "html" or "plain",
every flagged sentence found by the substring search is replaced by itself,
so the highlighter returns the input text unchanged. -/
theorem highlight_ai_text_unknown_format (output_format : String)
    (render : ℚ → String) (ai_sentences : List (String × ℚ)) (text : String)
    (h1 : output_format ≠ "markdown") (h2 : output_format ≠ "html")
    (h3 : output_format ≠ "plain") :
    highlight_ai_text output_format render ai_sentences text = text := by
  suffices h : ∀ l : List Char,
      ai_sentences.foldl (highlight_step output_format render) l = l by
    rw [highlight_ai_text, h]
  induction ai_sentences with
  | nil => intro l; rfl
  | cons p rest ih =>
    intro l
    rw [List.foldl_cons]
    have hstep : highlight_step output_format render l p = l := by
      rw [highlight_step]
      cases hf : pyFind l p.1.data with
      | none => rfl
      | some i =>
        have hfmt : format_ai_sentence output_format (render p.2) p.1
            = p.1 := by
          rw [format_ai_sentence, if_neg h1, if_neg h2, if_neg h3]
        simp only [hfmt]
        exact pyFind_splice hf
    rw [hstep]
    exact ih l

/-- C10 witness: the unknown format "latex" leaves a text containing a
flagged sentence unchanged. -/
theorem highlight_ai_text_unknown_format_witness :
    highlight_ai_text "latex" (fun _ => "0.80")
        [("is a sentence", 4/5)] "This is a sentence here." =
      "This is a sentence here." :=
  highlight_ai_text_unknown_format "latex" (fun _ => "0.80")
    [("is a sentence", 4/5)] "This is a sentence here."
    (by decide) (by decide) (by decide)

end Humanizer
